import Mathlib

/-!
Shallow embedding of the PolymarketBTC15mAssistant signal server and its
paper trading engine.  Monetary amounts and prices are modelled as exact
rationals, timestamps as natural numbers, and JavaScript null values as
Option.  The definitions follow the JavaScript source: the PaperTrader
class (canTrade, evaluateAndTrade, settlePositions, reset, checkAutoReset,
getStatus), the countVwapCrosses helper, the priceToBeat latching state in
updateData, and the latestData publication consumed by the data endpoint.
-/

namespace PolymarketBTC15m

/-- Outcome side of the binary market. -/
inductive Side where
  | UP
  | DOWN
  deriving DecidableEq

/-- Lifecycle status of a paper position. -/
inductive PStatus where
  | OPEN
  | SETTLED
  | FORCE_SETTLED
  deriving DecidableEq

/-- Paper trade / position record, mirroring the object built in
PaperTrader.evaluateAndTrade and mutated at settlement. -/
structure Trade where
  id : Nat
  timestamp : Nat
  marketSlug : String
  side : Side
  shares : Int
  entryPrice : ℚ
  cost : ℚ
  priceToBeat : Option ℚ
  currentPrice : Option ℚ
  edge : ℚ
  strength : String
  phase : String
  timeLeftMin : ℚ
  status : PStatus
  pnl : Option ℚ
  exitPrice : Option ℚ
  settledAt : Option Nat
  outcome : Option Side
  finalPrice : Option ℚ
  deriving DecidableEq

/-- Per-session statistics, as produced by PaperTrader.initStats. -/
structure Stats where
  totalTrades : Nat
  wins : Nat
  losses : Nat
  totalWon : ℚ
  totalLost : ℚ
  largestWin : ℚ
  largestLoss : ℚ
  currentStreak : Int
  bestStreak : Int
  worstStreak : Int
  deriving DecidableEq

/-- Lifetime statistics, as produced by PaperTrader.initLifetimeStats. -/
structure LifetimeStats where
  totalSessions : Nat
  totalTrades : Nat
  totalWins : Nat
  totalLosses : Nat
  totalWon : ℚ
  totalLost : ℚ
  sessionsWon : Nat
  sessionsLost : Nat
  deriving DecidableEq

/-- Closed session record pushed onto sessionHistory by PaperTrader.reset. -/
structure Session where
  id : Nat
  startedAt : Nat
  endedAt : Nat
  startingBalance : ℚ
  endingBalance : ℚ
  pnl : ℚ
  pnlPct : ℚ
  trades : Nat
  wins : Nat
  losses : Nat
  winRatePct : ℚ
  wiped : Bool
  deriving DecidableEq

/-- The slice of the cycle snapshot consumed by the paper trader: market
slug, decision signal, venue prices, oracle prices and window timing. -/
structure MarketData where
  marketSlug : String
  signalAction : String
  signalSide : Option Side
  signalStrength : String
  signalEdge : ℚ
  upPrice : Option ℚ
  downPrice : Option ℚ
  chainlink : Option ℚ
  priceToBeat : Option ℚ
  phase : String
  timeLeftMin : ℚ
  deriving DecidableEq

/-- Full mutable state of the PaperTrader instance. -/
structure PaperTrader where
  startingBalance : ℚ
  balance : ℚ
  trades : List Trade
  positions : List Trade
  enabled : Bool
  startedAt : Nat
  stats : Stats
  sessionHistory : List Session
  lifetimeStats : LifetimeStats
  minEdge : ℚ
  maxPositionPct : ℚ
  cooldownMs : Nat
  lastTradeTime : Option Nat
  autoResetThreshold : ℚ
  currentMarketSlug : Option String
  pendingSettlement : Option MarketData
  deriving DecidableEq

/-- Fresh per-session statistics (PaperTrader.initStats). -/
def initStats : Stats :=
  { totalTrades := 0, wins := 0, losses := 0, totalWon := 0, totalLost := 0
    largestWin := 0, largestLoss := 0, currentStreak := 0, bestStreak := 0
    worstStreak := 0 }

/-- Fresh lifetime statistics (PaperTrader.initLifetimeStats). -/
def initLifetimeStats : LifetimeStats :=
  { totalSessions := 0, totalTrades := 0, totalWins := 0, totalLosses := 0
    totalWon := 0, totalLost := 0, sessionsWon := 0, sessionsLost := 0 }

/-- Fresh-start construction of the trader with the constructor's default
parameters: minEdge 0.10, maxPositionPct 0.05, cooldown 30000 ms,
auto-reset threshold 10, disabled. -/
def initialPaperTrader (startingBalance : ℚ) (now : Nat) : PaperTrader :=
  { startingBalance := startingBalance
    balance := startingBalance
    trades := []
    positions := []
    enabled := false
    startedAt := now
    stats := initStats
    sessionHistory := []
    lifetimeStats := initLifetimeStats
    minEdge := 1 / 10
    maxPositionPct := 1 / 20
    cooldownMs := 30000
    lastTradeTime := none
    autoResetThreshold := 10
    currentMarketSlug := none
    pendingSettlement := none }

/-- Session record built by PaperTrader.reset from the ending state. -/
def mkSession (pt : PaperTrader) (now : Nat) : Session :=
  { id := pt.sessionHistory.length + 1
    startedAt := pt.startedAt
    endedAt := now
    startingBalance := pt.startingBalance
    endingBalance := pt.balance
    pnl := pt.balance - pt.startingBalance
    pnlPct := (pt.balance / pt.startingBalance - 1) * 100
    trades := pt.stats.totalTrades
    wins := pt.stats.wins
    losses := pt.stats.losses
    winRatePct :=
      if pt.stats.totalTrades > 0 then
        (pt.stats.wins : ℚ) / (pt.stats.totalTrades : ℚ) * 100
      else 0
    wiped := decide (pt.balance < pt.autoResetThreshold) }

/-- Lifetime-stats update performed once per recorded session in
PaperTrader.reset. -/
def addSessionToLifetime (ls : LifetimeStats) (st : Stats) (sessionPnl : ℚ) :
    LifetimeStats :=
  { totalSessions := ls.totalSessions + 1
    totalTrades := ls.totalTrades + st.totalTrades
    totalWins := ls.totalWins + st.wins
    totalLosses := ls.totalLosses + st.losses
    totalWon := ls.totalWon + st.totalWon
    totalLost := ls.totalLost + st.totalLost
    sessionsWon := if sessionPnl > 0 then ls.sessionsWon + 1 else ls.sessionsWon
    sessionsLost := if sessionPnl > 0 then ls.sessionsLost else ls.sessionsLost + 1 }

/-- PaperTrader.reset: optionally record the ended session (only when it
had at least one trade), fold it into lifetime stats, then start a fresh
session with the given starting balance. -/
def reset (pt : PaperTrader) (startingBalance : ℚ) (recordSession : Bool)
    (now : Nat) : PaperTrader :=
  let pt1 :=
    if recordSession ∧ pt.stats.totalTrades > 0 then
      { pt with
        sessionHistory := pt.sessionHistory ++ [mkSession pt now]
        lifetimeStats :=
          addSessionToLifetime pt.lifetimeStats pt.stats
            (pt.balance - pt.startingBalance) }
    else pt
  { pt1 with
    startingBalance := startingBalance
    balance := startingBalance
    trades := []
    positions := []
    startedAt := now
    stats := initStats
    lastTradeTime := none }

/-- PaperTrader.checkAutoReset: reset the session when the balance is below
the auto-reset threshold and no positions are open. -/
def checkAutoReset (pt : PaperTrader) (now : Nat) : Bool × PaperTrader :=
  if pt.balance < pt.autoResetThreshold ∧ pt.positions = [] then
    (true, reset pt pt.startingBalance true now)
  else (false, pt)

/-- Structured rejection reasons returned by canTrade and evaluateAndTrade,
one constructor per distinct reason string in the source. -/
inductive Reason where
  | disabled
  | sessionReset
  | balanceTooLow
  | cooldown
  | noActionableSignal
  | edgeBelowMin
  | notStrongEnough
  | tooLate
  | invalidPrice
  | positionTooSmall
  | insufficientBalance
  deriving DecidableEq

/-- Cooldown test in PaperTrader.canTrade: a last-trade timestamp exists and
less than cooldownMs milliseconds have elapsed. -/
def cooldownActive (pt : PaperTrader) (now : Nat) : Bool :=
  match pt.lastTradeTime with
  | none => false
  | some t => decide ((now : Int) - (t : Int) < (pt.cooldownMs : Int))

/-- PaperTrader.canTrade: disabled, auto-reset, low-balance and cooldown
gates; returns the rejection reason (none means allowed) together with the
possibly auto-reset state. -/
def canTrade (pt : PaperTrader) (now : Nat) : Option Reason × PaperTrader :=
  if !pt.enabled then (some Reason.disabled, pt)
  else
    let ar := checkAutoReset pt now
    if ar.1 then (some Reason.sessionReset, ar.2)
    else if ar.2.balance < ar.2.autoResetThreshold then
      (some Reason.balanceTooLow, ar.2)
    else if cooldownActive ar.2 now then (some Reason.cooldown, ar.2)
    else (none, ar.2)

/-- Venue buy price for the signalled side (upPrice for UP, downPrice
otherwise). -/
def tradePrice (data : MarketData) : Option ℚ :=
  match data.signalSide with
  | some Side.UP => data.upPrice
  | _ => data.downPrice

/-- Edge fraction: signal.edge is a percentage, divided by 100. -/
def edgeValueOf (data : MarketData) : ℚ := data.signalEdge / 100

/-- Half-Kelly fraction capped by maxPositionPct. -/
def kellyFractionOf (pt : PaperTrader) (data : MarketData) : ℚ :=
  min (edgeValueOf data * (1 / 2)) pt.maxPositionPct

/-- Dollar position size: min of the edge-based size and the maximum
fraction of balance. -/
def positionSizeOf (pt : PaperTrader) (data : MarketData) : ℚ :=
  min (pt.balance * kellyFractionOf pt data) (pt.balance * pt.maxPositionPct)

/-- Share count: floor of size over price. -/
def sharesOf (pt : PaperTrader) (data : MarketData) (price : ℚ) : Int :=
  ⌊positionSizeOf pt data / price⌋

/-- Cost debited on entry: shares times price. -/
def costOf (pt : PaperTrader) (data : MarketData) (price : ℚ) : ℚ :=
  (sharesOf pt data price : ℚ) * price

/-- Trade record created on entry in PaperTrader.evaluateAndTrade. -/
def mkTrade (pt : PaperTrader) (data : MarketData) (side : Side) (price : ℚ)
    (now : Nat) : Trade :=
  { id := now
    timestamp := now
    marketSlug := data.marketSlug
    side := side
    shares := sharesOf pt data price
    entryPrice := price
    cost := costOf pt data price
    priceToBeat := data.priceToBeat
    currentPrice := data.chainlink
    edge := data.signalEdge
    strength := data.signalStrength
    phase := data.phase
    timeLeftMin := data.timeLeftMin
    status := PStatus.OPEN
    pnl := none
    exitPrice := none
    settledAt := none
    outcome := none
    finalPrice := none }

/-- Settlement outcome: UP wins exactly when the current price is strictly
greater than the price to beat. -/
def settleOutcome (currentPrice priceToBeat : ℚ) : Side :=
  if currentPrice > priceToBeat then Side.UP else Side.DOWN

/-- Payout of a position at settlement: one dollar per share for the
winning side, zero for the losing side. -/
def payout (outcome : Side) (t : Trade) : ℚ :=
  if t.side = outcome then (t.shares : ℚ) * 1 else 0

/-- Mutation applied to an OPEN trade at settlement. -/
def settleOpen (outcome : Side) (currentPrice : ℚ) (now : Nat) (t : Trade) :
    Trade :=
  { t with
    status := PStatus.SETTLED
    exitPrice := some (if t.side = outcome then 1 else 0)
    pnl := some (payout outcome t - t.cost)
    settledAt := some now
    outcome := some outcome
    finalPrice := some currentPrice }

/-- Session-stats update performed for each settled position. -/
def settleStats (st : Stats) (pnl : ℚ) : Stats :=
  if pnl > 0 then
    { st with
      totalTrades := st.totalTrades + 1
      wins := st.wins + 1
      totalWon := st.totalWon + pnl
      largestWin := max st.largestWin pnl
      currentStreak := max 0 st.currentStreak + 1
      bestStreak := max st.bestStreak (max 0 st.currentStreak + 1) }
  else
    { st with
      totalTrades := st.totalTrades + 1
      losses := st.losses + 1
      totalLost := st.totalLost + |pnl|
      largestLoss := max st.largestLoss |pnl|
      currentStreak := min 0 st.currentStreak - 1
      worstStreak := min st.worstStreak (min 0 st.currentStreak - 1) }

/-- Accumulator threaded through the settlement loop: running balance,
stats, the trade log (aliased with the settled positions) and the
positions that stay in the map. -/
structure SettleAcc where
  balance : ℚ
  stats : Stats
  trades : List Trade
  kept : List Trade
  deriving DecidableEq

/-- Settlement loop over the positions map: OPEN entries are settled,
credited and removed; other entries are skipped and kept. -/
def settleLoop (outcome : Side) (currentPrice : ℚ) (now : Nat) :
    List Trade → SettleAcc → SettleAcc
  | [], acc => acc
  | t :: rest, acc =>
    if t.status = PStatus.OPEN then
      let pay := payout outcome t
      let pnl := pay - t.cost
      let settled := settleOpen outcome currentPrice now t
      settleLoop outcome currentPrice now rest
        { balance := acc.balance + pay
          stats := settleStats acc.stats pnl
          trades := acc.trades.map fun x => if x.id = t.id then settled else x
          kept := acc.kept }
    else
      settleLoop outcome currentPrice now rest { acc with kept := acc.kept ++ [t] }

/-- PaperTrader.settlePositions: no-op without final data, without
positions, or when either reference price is null; otherwise settles every
OPEN position against the derived outcome. -/
def settlePositions (pt : PaperTrader) (finalData : Option MarketData)
    (now : Nat) : PaperTrader :=
  match finalData with
  | none => pt
  | some fd =>
    if pt.positions = [] then pt
    else
      match fd.chainlink, fd.priceToBeat with
      | some cp, some ptb =>
        let outcome := settleOutcome cp ptb
        let acc := settleLoop outcome cp now pt.positions
          { balance := pt.balance, stats := pt.stats, trades := pt.trades
            kept := [] }
        { pt with
          balance := acc.balance
          stats := acc.stats
          trades := acc.trades
          positions := acc.kept }
      | _, _ => pt

/-- Market-change check of PaperTrader.evaluateAndTrade: settle the
previous market with the last pending snapshot when a tracked slug differs
from the new one. -/
def settleIfChanged (pt : PaperTrader) (data : MarketData) (now : Nat) :
    PaperTrader :=
  match pt.currentMarketSlug with
  | some s =>
    if s ≠ data.marketSlug then settlePositions pt pt.pendingSettlement now
    else pt
  | none => pt

/-- Market-change preamble of PaperTrader.evaluateAndTrade: settle the
previous market when the slug changed, then track the new slug and
remember the snapshot for the next settlement. -/
def applyMarketChange (pt : PaperTrader) (data : MarketData) (now : Nat) :
    PaperTrader :=
  { settleIfChanged pt data now with
    currentMarketSlug := some data.marketSlug
    pendingSettlement := some data }

/-- Result of one evaluateAndTrade call. -/
inductive TradeResult where
  | rejected (reason : Reason)
  | executed (trade : Trade) (balance : ℚ)
  deriving DecidableEq

/-- Rejection reason carried by a trade result, none for an executed
trade. -/
def TradeResult.reasonOf : TradeResult → Option Reason
  | .rejected r => some r
  | .executed _ _ => none

/-- Gate-and-execute part of PaperTrader.evaluateAndTrade, run after the
market-change preamble. -/
def evalGates (pt : PaperTrader) (data : MarketData) (now : Nat) :
    TradeResult × PaperTrader :=
  match canTrade pt now with
  | (some r, pt1) => (.rejected r, pt1)
  | (none, pt1) =>
    if data.signalAction = "HOLD" then (.rejected .noActionableSignal, pt1)
    else
      match data.signalSide with
      | none => (.rejected .noActionableSignal, pt1)
      | some side =>
        if edgeValueOf data < pt1.minEdge then (.rejected .edgeBelowMin, pt1)
        else if data.signalStrength ≠ "STRONG" ∧ data.signalStrength ≠ "GOOD" then
          (.rejected .notStrongEnough, pt1)
        else if data.phase = "LATE" then (.rejected .tooLate, pt1)
        else
          match tradePrice data with
          | none => (.rejected .invalidPrice, pt1)
          | some price =>
            if price ≤ 0 ∨ 1 ≤ price then (.rejected .invalidPrice, pt1)
            else if sharesOf pt1 data price < 1 ∨ positionSizeOf pt1 data < 1 then
              (.rejected .positionTooSmall, pt1)
            else if pt1.balance < costOf pt1 data price then
              (.rejected .insufficientBalance, pt1)
            else
              let trade := mkTrade pt1 data side price now
              (.executed trade (pt1.balance - costOf pt1 data price),
               { pt1 with
                 balance := pt1.balance - costOf pt1 data price
                 lastTradeTime := some now
                 trades := pt1.trades ++ [trade]
                 positions := pt1.positions ++ [trade] })

/-- PaperTrader.evaluateAndTrade: market-change settlement preamble
followed by the gate sequence and execution. -/
def evaluateAndTrade (pt : PaperTrader) (data : MarketData) (now : Nat) :
    TradeResult × PaperTrader :=
  evalGates (applyMarketChange pt data now) data now

/-- Positions currently OPEN. -/
def openTrades (pt : PaperTrader) : List Trade :=
  pt.positions.filter fun t => decide (t.status = PStatus.OPEN)

/-- Total cost locked in OPEN positions. -/
def openCost (pt : PaperTrader) : ℚ :=
  ((openTrades pt).map Trade.cost).sum

/-- Status report built by PaperTrader.getStatus.  Formatted display
strings of the source are kept as their raw numeric values; the infinite
profit factor is represented by none. -/
structure PaperStatus where
  enabled : Bool
  startingBalance : ℚ
  currentBalance : ℚ
  openPositionsValue : ℚ
  totalValue : ℚ
  pnl : ℚ
  pnlPct : ℚ
  startedAt : Nat
  currentSession : Nat
  stats : Stats
  winRatePct : ℚ
  avgWin : ℚ
  avgLoss : ℚ
  profitFactor : Option ℚ
  lifetimeStats : LifetimeStats
  lifetimeWinRatePct : ℚ
  lifetimeNetPnl : ℚ
  sessionHistory : List Session
  openPositions : List Trade
  recentTrades : List Trade
  deriving DecidableEq

/-- Pure construction of the status report from a trader state. -/
def mkStatus (pt : PaperTrader) : PaperStatus :=
  let openPositions := openTrades pt
  let openValue := (openPositions.map Trade.cost).sum
  { enabled := pt.enabled
    startingBalance := pt.startingBalance
    currentBalance := pt.balance
    openPositionsValue := openValue
    totalValue := pt.balance + openValue
    pnl := pt.balance + openValue - pt.startingBalance
    pnlPct := ((pt.balance + openValue) / pt.startingBalance - 1) * 100
    startedAt := pt.startedAt
    currentSession := pt.sessionHistory.length + 1
    stats := pt.stats
    winRatePct :=
      if pt.stats.totalTrades > 0 then
        (pt.stats.wins : ℚ) / (pt.stats.totalTrades : ℚ) * 100
      else 0
    avgWin := if pt.stats.wins > 0 then pt.stats.totalWon / (pt.stats.wins : ℚ) else 0
    avgLoss := if pt.stats.losses > 0 then pt.stats.totalLost / (pt.stats.losses : ℚ) else 0
    profitFactor :=
      if pt.stats.totalLost > 0 then some (pt.stats.totalWon / pt.stats.totalLost)
      else none
    lifetimeStats := pt.lifetimeStats
    lifetimeWinRatePct :=
      if pt.lifetimeStats.totalTrades > 0 then
        (pt.lifetimeStats.totalWins : ℚ) / (pt.lifetimeStats.totalTrades : ℚ) * 100
      else 0
    lifetimeNetPnl := pt.lifetimeStats.totalWon - pt.lifetimeStats.totalLost
    sessionHistory :=
      (pt.sessionHistory.drop (pt.sessionHistory.length - 10)).reverse
    openPositions := openPositions
    recentTrades := (pt.trades.drop (pt.trades.length - 20)).reverse }

/-- PaperTrader.getStatus: runs checkAutoReset first, then reports the
status of the resulting state. -/
def getStatus (pt : PaperTrader) (now : Nat) : PaperStatus × PaperTrader :=
  let pt1 := (checkAutoReset pt now).2
  (mkStatus pt1, pt1)

/-- Crossing predicate at bar index i of the countVwapCrosses loop: the
previous difference is nonzero and the adjacent differences have strictly
opposite signs. -/
def crossAt (closes vwapSeries : List ℚ) (i : Nat) : Bool :=
  let prev := closes.getD (i - 1) 0 - vwapSeries.getD (i - 1) 0
  let cur := closes.getD i 0 - vwapSeries.getD i 0
  decide (¬prev = 0 ∧ ((prev > 0 ∧ cur < 0) ∨ (prev < 0 ∧ cur > 0)))

/-- countVwapCrosses from the server: null when either series has fewer
than lookback bars, otherwise the number of adjacent sign changes of
(close − vwap) over the last lookback bars. -/
def countVwapCrosses (closes vwapSeries : List ℚ) (lookback : Nat) :
    Option Nat :=
  if closes.length < lookback ∨ vwapSeries.length < lookback then none
  else
    some
      (((List.range' (closes.length - lookback + 1) (lookback - 1)).filter
        (crossAt closes vwapSeries)).length)

/-- priceToBeatState from the server: the slug the latch is scoped to, the
latched value, and the latch timestamp. -/
structure PTBState where
  slug : Option String
  value : Option ℚ
  setAtMs : Option Nat
  deriving DecidableEq

/-- Inputs of one updateData cycle that feed the priceToBeat logic. -/
structure CycleInput where
  marketSlug : String
  currentPrice : Option ℚ
  marketStartMs : Option Nat
  nowMs : Nat
  deriving DecidableEq

/-- JavaScript truthiness of the stored slug: non-null and non-empty. -/
def slugTruthy : Option String → Bool
  | none => false
  | some s => !(s == "")

/-- The priceToBeat update step of updateData: reset the latch when a
nonempty market slug differs from the stored one, then latch the current
oracle price when no value is stored and the window start (when known) has
been reached. -/
def ptbStep (st : PTBState) (c : CycleInput) : PTBState :=
  let st1 :=
    if c.marketSlug ≠ "" ∧ st.slug ≠ some c.marketSlug then
      { slug := some c.marketSlug, value := none, setAtMs := none }
    else st
  if slugTruthy st1.slug ∧ st1.value = none ∧ c.currentPrice ≠ none then
    let okToLatch :=
      match c.marketStartMs with
      | none => true
      | some m => decide (c.nowMs ≥ m)
    if okToLatch then
      { slug := st1.slug, value := c.currentPrice, setAtMs := some c.nowMs }
    else st1
  else st1

/-- Folding ptbStep over a whole sequence of cycles. -/
def ptbRun (st : PTBState) (cs : List CycleInput) : PTBState :=
  cs.foldl ptbStep st

/-- Published priceToBeat of a cycle: the stored value only when the latch
is scoped to the current market slug, null otherwise. -/
def ptbRead (st : PTBState) (marketSlug : String) : Option ℚ :=
  if st.slug = some marketSlug then st.value else none

/-- One iteration of the server loop as seen by latestData: a successful
updateData cycle replaces the snapshot atomically, a failed cycle leaves
the previous snapshot untouched. -/
def updateCycle {α : Type} (latest : Option α) (result : Option α) : Option α :=
  match result with
  | some d => some d
  | none => latest

/-- The server loop folded over a sequence of cycle results, starting from
the initial null latestData. -/
def runCycles {α : Type} (latest : Option α) (results : List (Option α)) :
    Option α :=
  results.foldl updateCycle latest

/-- Response of the data endpoint. -/
inductive ApiResponse (α : Type) where
  | notReady
  | ok (d : α)
  deriving DecidableEq

/-- The data endpoint: 503 not-ready while latestData is null, otherwise
the latest snapshot. -/
def getDataEndpoint {α : Type} (latest : Option α) : ApiResponse α :=
  match latest with
  | none => ApiResponse.notReady
  | some d => ApiResponse.ok d

/-- Most recent successful result of a cycle sequence. -/
def lastSuccess {α : Type} : List (Option α) → Option α
  | [] => none
  | r :: rest =>
    match lastSuccess rest with
    | some d => some d
    | none => r

/-- The market price for the signalled side lies outside the open interval
between zero and one, or is missing. -/
def priceOutOfRange (data : MarketData) : Bool :=
  match tradePrice data with
  | none => true
  | some p => decide (p ≤ 0 ∨ 1 ≤ p)

/-- The computed position is below one share or below one dollar of
notional. -/
def sizeTooSmall (pt : PaperTrader) (data : MarketData) : Bool :=
  match tradePrice data with
  | none => false
  | some p => decide (sharesOf pt data p < 1 ∨ positionSizeOf pt data < 1)

/-- The computed cost exceeds the available balance. -/
def balanceInsufficient (pt : PaperTrader) (data : MarketData) : Bool :=
  match tradePrice data with
  | none => false
  | some p => decide (pt.balance < costOf pt data p)

/-- Gate conditions of evaluateAndTrade in the order the specification
lists them, each paired with the structured reason it returns. -/
def gateChecks (pt : PaperTrader) (data : MarketData) (now : Nat) :
    List (Bool × Reason) :=
  [ (!pt.enabled, Reason.disabled),
    (decide (pt.balance < pt.autoResetThreshold) && decide (pt.positions = []),
      Reason.sessionReset),
    (decide (pt.balance < pt.autoResetThreshold), Reason.balanceTooLow),
    (cooldownActive pt now, Reason.cooldown),
    (decide (data.signalAction = "HOLD") || decide (data.signalSide = none),
      Reason.noActionableSignal),
    (decide (edgeValueOf data < pt.minEdge), Reason.edgeBelowMin),
    (decide (data.signalStrength ≠ "STRONG") && decide (data.signalStrength ≠ "GOOD"),
      Reason.notStrongEnough),
    (decide (data.phase = "LATE"), Reason.tooLate),
    (priceOutOfRange data, Reason.invalidPrice),
    (sizeTooSmall pt data, Reason.positionTooSmall),
    (balanceInsufficient pt data, Reason.insufficientBalance) ]

/-- First failing gate of an ordered gate list. -/
def firstFailing : List (Bool × Reason) → Option Reason
  | [] => none
  | (b, r) :: rest => if b then some r else firstFailing rest

/-- Concrete trader used for the sizing example: fresh defaults with
balance 1000, enabled. -/
def ptC3 : PaperTrader :=
  { initialPaperTrader 1000 0 with enabled := true }

/-- Concrete snapshot for the sizing example: STRONG BUY_UP signal with a
25 percent edge in the MID phase at market price 0.40. -/
def dataC3 : MarketData :=
  { marketSlug := "btc-15m-1", signalAction := "BUY_UP", signalSide := some Side.UP,
    signalStrength := "STRONG", signalEdge := 25, upPrice := some (2/5),
    downPrice := some (3/5), chainlink := some 60123, priceToBeat := some 60000,
    phase := "MID", timeLeftMin := 7 }

/-- Expected trade record of the sizing example. -/
def trC3 : Trade :=
  { id := 100, timestamp := 100, marketSlug := "btc-15m-1", side := Side.UP,
    shares := 125, entryPrice := 2/5, cost := 50, priceToBeat := some 60000,
    currentPrice := some 60123, edge := 25, strength := "STRONG", phase := "MID",
    timeLeftMin := 7, status := PStatus.OPEN, pnl := none, exitPrice := none,
    settledAt := none, outcome := none, finalPrice := none }

/-- Concrete OPEN position on the UP side: 125 shares bought for 50. -/
def trUP : Trade :=
  { id := 1, timestamp := 1, marketSlug := "m", side := Side.UP, shares := 125,
    entryPrice := 2/5, cost := 50, priceToBeat := some 60000,
    currentPrice := some 60000, edge := 25, strength := "STRONG", phase := "MID",
    timeLeftMin := 7, status := PStatus.OPEN, pnl := none, exitPrice := none,
    settledAt := none, outcome := none, finalPrice := none }

/-- Concrete OPEN position on the DOWN side with the same shares and cost. -/
def trDOWN : Trade :=
  { trUP with id := 2, side := Side.DOWN }

/-- Trader holding the two concrete positions above. -/
def ptSettle : PaperTrader :=
  { initialPaperTrader 1000 0 with
    balance := 900
    positions := [trUP, trDOWN]
    trades := [trUP, trDOWN] }

/-- Snapshot settling the market at price 60123 against price-to-beat
60000. -/
def fdSettle : MarketData :=
  { dataC3 with marketSlug := "m" }

/-- Concrete low-balance, no-position, disabled trader with a nonempty
session. -/
def ptC4 : PaperTrader :=
  { initialPaperTrader 1000 5 with
    balance := 19/2
    stats := { initStats with totalTrades := 3, wins := 2, losses := 1 } }

/-- Invariant of the paper engine state: nonnegative balance, nonnegative
starting balance, and nonnegative share counts in the positions map. -/
def PtInv (pt : PaperTrader) : Prop :=
  0 ≤ pt.balance ∧ 0 ≤ pt.startingBalance ∧ ∀ t ∈ pt.positions, 0 ≤ t.shares

/-- Events driving the paper engine from the cycle loop. -/
inductive PtEvent where
  | eval (data : MarketData) (now : Nat)
  | settle (fd : Option MarketData) (now : Nat)

/-- One paper-engine step. -/
def ptStep (pt : PaperTrader) : PtEvent → PaperTrader
  | .eval data now => (evaluateAndTrade pt data now).2
  | .settle fd now => settlePositions pt fd now

/-- A whole sequence of entries and settlements. -/
def ptRun (pt : PaperTrader) (evs : List PtEvent) : PaperTrader :=
  evs.foldl ptStep pt

/-! ## Theorems -/

/-- C3: with balance 1000, edge 0.25, strength STRONG, phase MID and
market price 0.40, the paper trader buys shares
floor(min(1000·min(0.125, 0.05), 1000·0.05)/0.40) = 125 at cost 50.00 and
the balance becomes 950.00. -/
theorem c3_sizing_example :
    sharesOf ptC3 dataC3 (2/5) = 125 ∧
    costOf ptC3 dataC3 (2/5) = 50 ∧
    (evaluateAndTrade ptC3 dataC3 100).1.reasonOf = none ∧
    (evaluateAndTrade ptC3 dataC3 100).2.balance = 950 ∧
    (evaluateAndTrade ptC3 dataC3 100).2.positions.map Trade.shares = [125] ∧
    (evaluateAndTrade ptC3 dataC3 100).2.positions.map Trade.cost = [50] := by
  norm_num +decide [evaluateAndTrade, evalGates, applyMarketChange, settleIfChanged, canTrade,
    checkAutoReset, cooldownActive, edgeValueOf, kellyFractionOf, positionSizeOf,
    sharesOf, costOf, tradePrice, mkTrade, ptC3, dataC3, initialPaperTrader,
    initStats, initLifetimeStats, TradeResult.reasonOf]

/-- C7 counterexample: a difference series going positive, zero, negative
inside the lookback window is counted as zero crosses by the code, not as
one cross as the claim states, because the loop only compares adjacent
bars and skips pairs whose previous difference is exactly zero. -/
theorem c7_zero_break_counterexample :
    countVwapCrosses [1, 0, -1] [0, 0, 0] 3 = some 0 ∧
    countVwapCrosses [1, 0, -1] [0, 0, 0] 3 ≠ some 1 := by
  norm_num +decide [countVwapCrosses, crossAt, List.range', List.getD, List.filter]

/-- C5 counterexample: over the cycle sequence slug a, slug b, slug a, the
latch for slug a is set twice with different values, so priceToBeat is not
set at most once per market slug across every sequence of cycles, and a
later cycle under slug a does change a previously latched value. -/
theorem c5_relatch_counterexample :
    (ptbRun { slug := none, value := none, setAtMs := none }
        [{ marketSlug := "a", currentPrice := some 1, marketStartMs := none, nowMs := 0 }]).slug
        = some "a" ∧
    (ptbRun { slug := none, value := none, setAtMs := none }
        [{ marketSlug := "a", currentPrice := some 1, marketStartMs := none, nowMs := 0 }]).value
        = some 1 ∧
    (ptbRun { slug := none, value := none, setAtMs := none }
        [{ marketSlug := "a", currentPrice := some 1, marketStartMs := none, nowMs := 0 },
         { marketSlug := "b", currentPrice := none, marketStartMs := none, nowMs := 1 },
         { marketSlug := "a", currentPrice := some 2, marketStartMs := none, nowMs := 2 }]).slug
        = some "a" ∧
    (ptbRun { slug := none, value := none, setAtMs := none }
        [{ marketSlug := "a", currentPrice := some 1, marketStartMs := none, nowMs := 0 },
         { marketSlug := "b", currentPrice := none, marketStartMs := none, nowMs := 1 },
         { marketSlug := "a", currentPrice := some 2, marketStartMs := none, nowMs := 2 }]).value
        = some 2 ∧
    ¬ ((2 : ℚ) = 1) := by
  refine ⟨by decide, by decide, by decide, by decide, by norm_num⟩

/-- C5 amended: within a contiguous run of cycles under one slug the latch
behaves as claimed: a latched value is never changed while the tracked
slug stays the same; a cycle with a different nonempty slug clears the
latch (the value right after such a cycle is either still unset or the
price just latched under the new slug); any value present after a step was
either already present or was latched from the cycle's oracle price at or
after the window start when one is known; and the published read is null
whenever the stored scope differs from the current slug. -/
theorem c5_latching_amended :
    (∀ (st : PTBState) (c : CycleInput) (v : ℚ),
        st.value = some v → st.slug = some c.marketSlug → ptbStep st c = st) ∧
    (∀ (st : PTBState) (c : CycleInput),
        c.marketSlug ≠ "" → st.slug ≠ some c.marketSlug →
          (ptbStep st c).slug = some c.marketSlug ∧
          ((ptbStep st c).value = none ∨ (ptbStep st c).value = c.currentPrice)) ∧
    (∀ (st : PTBState) (c : CycleInput) (cp : ℚ),
        (ptbStep st c).value = some cp →
          st.value = some cp ∨
          (c.currentPrice = some cp ∧ ∀ m, c.marketStartMs = some m → c.nowMs ≥ m)) ∧
    (∀ (st : PTBState) (slug : String),
        st.slug ≠ some slug → ptbRead st slug = none) := by
  refine ⟨?_, ?_, ?_, ?_⟩
  · intro st c v hv hs
    simp [ptbStep, hs, hv]
  · intro st c h1 h2
    rcases hcp : c.currentPrice with _ | cp
    · simp [ptbStep, h1, h2, hcp, slugTruthy]
    · rcases hms : c.marketStartMs with _ | m
      · simp [ptbStep, h1, h2, hcp, hms, slugTruthy]
      · by_cases hok : c.nowMs ≥ m <;>
          simp [ptbStep, h1, h2, hcp, hms, hok, slugTruthy]
  · intro st c cp h
    by_cases hr : c.marketSlug ≠ "" ∧ st.slug ≠ some c.marketSlug
    · simp only [ptbStep, if_pos hr] at h
      split_ifs at h with hcond hok
      refine Or.inr ⟨by simpa using h, ?_⟩
      intro m hm
      rw [hm] at hok
      simpa using hok
    · simp only [ptbStep, if_neg hr] at h
      split_ifs at h with hcond hok
      · refine Or.inr ⟨by simpa using h, ?_⟩
        intro m hm
        rw [hm] at hok
        simpa using hok
      · exact Or.inl h
      · exact Or.inl h
  · intro st slug h
    simp [ptbRead, h]

/-- Witness for the amended C5 theorem at concrete states. -/
theorem c5_latching_amended_witness :
    ptbStep { slug := some "a", value := some 1, setAtMs := some 0 }
        { marketSlug := "a", currentPrice := some 5, marketStartMs := none, nowMs := 9 }
      = { slug := some "a", value := some 1, setAtMs := some 0 } ∧
    (ptbStep { slug := some "a", value := some 1, setAtMs := some 0 }
        { marketSlug := "b", currentPrice := some 7, marketStartMs := none, nowMs := 9 }).slug
      = some "b" ∧
    ptbRead { slug := some "a", value := some (1 : ℚ), setAtMs := some 0 } "b" = none := by
  refine ⟨c5_latching_amended.1 _ _ 1 rfl rfl,
    (c5_latching_amended.2.1 _ _ (by decide) (by decide)).1,
    c5_latching_amended.2.2.2 _ _ (by decide)⟩

/-- Helper: gate-order equivalence for the post-preamble part of
evaluateAndTrade.  The rejection reason is exactly the first failing gate
of the specification's ordered gate list. -/
theorem evalGates_reasonOf (pt : PaperTrader) (data : MarketData) (now : Nat) :
    (evalGates pt data now).1.reasonOf = firstFailing (gateChecks pt data now) := by
  by_cases hE : pt.enabled
  · by_cases hAR : pt.balance < pt.autoResetThreshold ∧ pt.positions = []
    · simp [evalGates, canTrade, checkAutoReset, hE, hAR, hAR.1, hAR.2, gateChecks,
        firstFailing, TradeResult.reasonOf]
    · by_cases hB : pt.balance < pt.autoResetThreshold
      · have hP : ¬pt.positions = [] := fun hp => hAR ⟨hB, hp⟩
        simp [evalGates, canTrade, checkAutoReset, hE, hAR, hB, hP, gateChecks,
          firstFailing, TradeResult.reasonOf]
      · by_cases hC : cooldownActive pt now
        · simp [evalGates, canTrade, checkAutoReset, hE, hAR, hB, hC, gateChecks,
            firstFailing, TradeResult.reasonOf]
        · by_cases hH : data.signalAction = "HOLD"
          · simp [evalGates, canTrade, checkAutoReset, hE, hAR, hB, hC, hH, gateChecks,
              firstFailing, TradeResult.reasonOf]
          · rcases hS : data.signalSide with _ | side
            · simp [evalGates, canTrade, checkAutoReset, hE, hAR, hB, hC, hH, hS,
                gateChecks, firstFailing, TradeResult.reasonOf]
            · by_cases hEdge : edgeValueOf data < pt.minEdge
              · simp [evalGates, canTrade, checkAutoReset, hE, hAR, hB, hC, hH, hS,
                  hEdge, gateChecks, firstFailing, TradeResult.reasonOf]
              · by_cases hStr : data.signalStrength ≠ "STRONG" ∧ data.signalStrength ≠ "GOOD"
                · simp [evalGates, canTrade, checkAutoReset, hE, hAR, hB, hC, hH, hS,
                    hEdge, hStr, gateChecks, firstFailing, TradeResult.reasonOf]
                · by_cases hLate : data.phase = "LATE"
                  · simp [evalGates, canTrade, checkAutoReset, hE, hAR, hB, hC, hH, hS,
                      hEdge, hStr, hLate, gateChecks, firstFailing, TradeResult.reasonOf]
                  · rcases hTP : tradePrice data with _ | price
                    · simp [evalGates, canTrade, checkAutoReset, hE, hAR, hB, hC, hH, hS,
                        hEdge, hStr, hLate, hTP, gateChecks, firstFailing,
                        TradeResult.reasonOf, priceOutOfRange, sizeTooSmall,
                        balanceInsufficient]
                    · by_cases hPR : price ≤ 0 ∨ 1 ≤ price
                      · simp [evalGates, canTrade, checkAutoReset, hE, hAR, hB, hC, hH,
                          hS, hEdge, hStr, hLate, hTP, hPR, gateChecks, firstFailing,
                          TradeResult.reasonOf, priceOutOfRange, sizeTooSmall,
                          balanceInsufficient]
                      · by_cases hSz : sharesOf pt data price < 1 ∨ positionSizeOf pt data < 1
                        · simp [evalGates, canTrade, checkAutoReset, hE, hAR, hB, hC, hH,
                            hS, hEdge, hStr, hLate, hTP, hPR, hSz, gateChecks,
                            firstFailing, TradeResult.reasonOf, priceOutOfRange,
                            sizeTooSmall, balanceInsufficient]
                        · by_cases hIB : pt.balance < costOf pt data price
                          · simp [evalGates, canTrade, checkAutoReset, hE, hAR, hB, hC,
                              hH, hS, hEdge, hStr, hLate, hTP, hPR, hSz, hIB, gateChecks,
                              firstFailing, TradeResult.reasonOf, priceOutOfRange,
                              sizeTooSmall, balanceInsufficient]
                          · simp [evalGates, canTrade, checkAutoReset, hE, hAR, hB, hC,
                              hH, hS, hEdge, hStr, hLate, hTP, hPR, hSz, hIB, gateChecks,
                              firstFailing, TradeResult.reasonOf, priceOutOfRange,
                              sizeTooSmall, balanceInsufficient]
  · simp [evalGates, canTrade, hE, gateChecks, firstFailing, TradeResult.reasonOf]

/-- C6: evaluateAndTrade checks its gates in exactly the specified order
and returns every gate failure as a structured reason: after the
market-change preamble, the rejection reason equals the first failing gate
of the ordered gate list, and an executed trade corresponds to no failing
gate.  Totality of the function embeds that rejections are returned, never
thrown. -/
theorem c6_gate_order (pt : PaperTrader) (data : MarketData) (now : Nat) :
    (evaluateAndTrade pt data now).1.reasonOf =
      firstFailing (gateChecks (applyMarketChange pt data now) data now) :=
  evalGates_reasonOf (applyMarketChange pt data now) data now

/-- Helper: sums of differences over a list split into difference of
sums. -/
theorem list_sum_map_sub (f g : Trade → ℚ) (l : List Trade) :
    (l.map fun t => f t - g t).sum = (l.map f).sum - (l.map g).sum := by
  induction l with
  | nil => simp
  | cons t rest ih => simp [ih]; ring

/-- Helper: the settlement loop credits the payouts of exactly the OPEN
positions of the list. -/
theorem settleLoop_balance (outcome : Side) (cp : ℚ) (now : Nat)
    (ts : List Trade) : ∀ acc : SettleAcc,
    (settleLoop outcome cp now ts acc).balance =
      acc.balance +
        ((ts.filter fun t => decide (t.status = PStatus.OPEN)).map
          (payout outcome)).sum := by
  induction ts with
  | nil => intro acc; simp [settleLoop]
  | cons t rest ih =>
    intro acc
    by_cases h : t.status = PStatus.OPEN
    · simp [settleLoop, h, ih]
      ring
    · simp [settleLoop, h, ih]

/-- Helper: the settlement loop keeps exactly the non-OPEN positions, in
order. -/
theorem settleLoop_kept (outcome : Side) (cp : ℚ) (now : Nat)
    (ts : List Trade) : ∀ acc : SettleAcc,
    (settleLoop outcome cp now ts acc).kept =
      acc.kept ++ ts.filter fun t => !decide (t.status = PStatus.OPEN) := by
  induction ts with
  | nil => intro acc; simp [settleLoop]
  | cons t rest ih =>
    intro acc
    by_cases h : t.status = PStatus.OPEN
    · simp [settleLoop, h, ih]
    · simp [settleLoop, h, ih]

/-- Helper: filtering the kept (non-OPEN) positions for OPEN ones yields
nothing. -/
theorem filter_open_of_not_open (l : List Trade) :
    ((l.filter fun t => !decide (t.status = PStatus.OPEN)).filter
      fun t => decide (t.status = PStatus.OPEN)) = [] := by
  induction l with
  | nil => simp
  | cons t rest ih =>
    by_cases h : t.status = PStatus.OPEN
    · simp [h, ih]
    · simp [h, ih]

/-- Helper: balance and positions of settlePositions when both reference
prices are available. -/
theorem settlePositions_some (pt : PaperTrader) (fd : MarketData) (now : Nat)
    (cp ptb : ℚ) (hcp : fd.chainlink = some cp) (hptb : fd.priceToBeat = some ptb) :
    (settlePositions pt (some fd) now).balance =
      pt.balance + ((openTrades pt).map (payout (settleOutcome cp ptb))).sum ∧
    (settlePositions pt (some fd) now).positions =
      pt.positions.filter fun t => !decide (t.status = PStatus.OPEN) := by
  by_cases hp : pt.positions = []
  · simp [settlePositions, hp, openTrades]
  · simp only [settlePositions, hcp, hptb, if_neg hp]
    constructor
    · simpa [openTrades] using
        settleLoop_balance (settleOutcome cp ptb) cp now pt.positions
          { balance := pt.balance, stats := pt.stats, trades := pt.trades, kept := [] }
    · simpa using
        settleLoop_kept (settleOutcome cp ptb) cp now pt.positions
          { balance := pt.balance, stats := pt.stats, trades := pt.trades, kept := [] }

/-- C2: settlement resolves UP exactly when the current price strictly
exceeds the latched price to beat and DOWN otherwise; every OPEN position
on the winning side pays one dollar per share, every other OPEN position
pays zero, with pnl equal to payout minus cost; and settlement is deferred
with no state change whenever the snapshot or either reference price is
missing. -/
theorem c2_settlement_rule :
    (∀ (pt : PaperTrader) (now : Nat), settlePositions pt none now = pt) ∧
    (∀ (pt : PaperTrader) (fd : MarketData) (now : Nat),
        fd.chainlink = none ∨ fd.priceToBeat = none →
        settlePositions pt (some fd) now = pt) ∧
    (∀ cp ptb : ℚ, (settleOutcome cp ptb = Side.UP ↔ ptb < cp) ∧
        (settleOutcome cp ptb = Side.DOWN ↔ ¬ptb < cp)) ∧
    (∀ (outcome : Side) (t : Trade),
        (t.side = outcome → payout outcome t = (t.shares : ℚ)) ∧
        (t.side ≠ outcome → payout outcome t = 0)) ∧
    (∀ (outcome : Side) (cp : ℚ) (now : Nat) (t : Trade),
        (settleOpen outcome cp now t).pnl = some (payout outcome t - t.cost) ∧
        (settleOpen outcome cp now t).status = PStatus.SETTLED) ∧
    (∀ (pt : PaperTrader) (fd : MarketData) (now : Nat) (cp ptb : ℚ),
        fd.chainlink = some cp → fd.priceToBeat = some ptb →
        (settlePositions pt (some fd) now).balance =
          pt.balance + ((openTrades pt).map (payout (settleOutcome cp ptb))).sum) := by
  refine ⟨?_, ?_, ?_, ?_, ?_, ?_⟩
  · intro pt now
    rfl
  · intro pt fd now h
    by_cases hp : pt.positions = []
    · simp [settlePositions, hp]
    · rcases h with h | h <;>
        · rcases hc : fd.chainlink with _ | cp <;> rcases hb : fd.priceToBeat with _ | ptb <;>
            simp_all [settlePositions, hp]
  · intro cp ptb
    constructor
    · unfold settleOutcome
      split_ifs with h <;> simp_all
    · unfold settleOutcome
      split_ifs with h <;> simp_all
  · intro outcome t
    constructor
    · intro h
      simp [payout, h]
    · intro h
      simp [payout, h]
  · intro outcome cp now t
    exact ⟨rfl, rfl⟩
  · intro pt fd now cp ptb hcp hptb
    exact (settlePositions_some pt fd now cp ptb hcp hptb).1

/-- Witness for the settlement-rule theorem at the concrete numbers of the
specification: price to beat 60000, settlement price 60123, a winning UP
position and a losing DOWN position with 125 shares bought for 50. -/
theorem c2_settlement_rule_witness :
    (settleOutcome 60123 60000 = Side.UP ↔ (60000 : ℚ) < 60123) ∧
    ((mkTrade ({ initialPaperTrader 1000 0 with enabled := true })
        { marketSlug := "m", signalAction := "BUY_UP", signalSide := some Side.UP,
          signalStrength := "STRONG", signalEdge := 25, upPrice := some (2/5),
          downPrice := some (3/5), chainlink := some 60123, priceToBeat := some 60000,
          phase := "MID", timeLeftMin := 7 } Side.UP (2/5) 1).side = Side.UP →
      payout Side.UP (mkTrade ({ initialPaperTrader 1000 0 with enabled := true })
        { marketSlug := "m", signalAction := "BUY_UP", signalSide := some Side.UP,
          signalStrength := "STRONG", signalEdge := 25, upPrice := some (2/5),
          downPrice := some (3/5), chainlink := some 60123, priceToBeat := some 60000,
          phase := "MID", timeLeftMin := 7 } Side.UP (2/5) 1) =
        ((mkTrade ({ initialPaperTrader 1000 0 with enabled := true })
        { marketSlug := "m", signalAction := "BUY_UP", signalSide := some Side.UP,
          signalStrength := "STRONG", signalEdge := 25, upPrice := some (2/5),
          downPrice := some (3/5), chainlink := some 60123, priceToBeat := some 60000,
          phase := "MID", timeLeftMin := 7 } Side.UP (2/5) 1).shares : ℚ)) ∧
    (settlePositions (initialPaperTrader 1000 0) none 3 = initialPaperTrader 1000 0) := by
  refine ⟨(c2_settlement_rule.2.2.1 60123 60000).1,
    (c2_settlement_rule.2.2.2.1 Side.UP _).1,
    c2_settlement_rule.1 (initialPaperTrader 1000 0) 3⟩

/-- Helper: the state returned by canTrade is either unchanged or the
auto-reset state (reported with the session-reset reason). -/
theorem canTrade_snd (pt : PaperTrader) (now : Nat) :
    (canTrade pt now).2 = pt ∨
      ((canTrade pt now).1 = some Reason.sessionReset ∧
        (canTrade pt now).2 = reset pt pt.startingBalance true now) := by
  unfold canTrade checkAutoReset
  split_ifs <;> simp
  split_ifs <;> simp

/-- Helper: an allowed canTrade leaves the state unchanged. -/
theorem canTrade_none_snd (pt : PaperTrader) (now : Nat)
    (h : (canTrade pt now).1 = none) : (canTrade pt now).2 = pt := by
  rcases canTrade_snd pt now with h1 | ⟨h2, _⟩
  · exact h1
  · rw [h2] at h
    cases h

/-- Helper: full characterization of an executed trade in the gate part of
evaluateAndTrade. -/
theorem evalGates_executed {pt : PaperTrader} {data : MarketData} {now : Nat}
    {tr : Trade} {bal : ℚ} {pt2 : PaperTrader}
    (h : evalGates pt data now = (TradeResult.executed tr bal, pt2)) :
    ∃ side price, data.signalSide = some side ∧ tradePrice data = some price ∧
      ¬(price ≤ 0 ∨ 1 ≤ price) ∧
      ¬(sharesOf pt data price < 1 ∨ positionSizeOf pt data < 1) ∧
      ¬(pt.balance < costOf pt data price) ∧
      tr = mkTrade pt data side price now ∧
      bal = pt.balance - costOf pt data price ∧
      pt2 = { pt with
              balance := pt.balance - costOf pt data price
              lastTradeTime := some now
              trades := pt.trades ++ [tr]
              positions := pt.positions ++ [tr] } := by
  unfold evalGates at h
  split at h
  next r pt1 heq => simp at h
  next pt1 heq =>
    have hpt1 : pt1 = pt := by
      have h2 := canTrade_none_snd pt now (by rw [heq])
      rw [heq] at h2
      exact h2
    rw [hpt1] at h
    by_cases hH : data.signalAction = "HOLD"
    · rw [if_pos hH] at h
      simp at h
    rw [if_neg hH] at h
    split at h
    next hS => simp at h
    next side hS =>
      by_cases hEdge : edgeValueOf data < pt.minEdge
      · rw [if_pos hEdge] at h
        simp at h
      rw [if_neg hEdge] at h
      by_cases hStr : data.signalStrength ≠ "STRONG" ∧ data.signalStrength ≠ "GOOD"
      · rw [if_pos hStr] at h
        simp at h
      rw [if_neg hStr] at h
      by_cases hLate : data.phase = "LATE"
      · rw [if_pos hLate] at h
        simp at h
      rw [if_neg hLate] at h
      split at h
      next hTP => simp at h
      next price hTP =>
        by_cases hPR : price ≤ 0 ∨ 1 ≤ price
        · rw [if_pos hPR] at h
          simp at h
        rw [if_neg hPR] at h
        by_cases hSz : sharesOf pt data price < 1 ∨ positionSizeOf pt data < 1
        · rw [if_pos hSz] at h
          simp at h
        rw [if_neg hSz] at h
        by_cases hIB : pt.balance < costOf pt data price
        · rw [if_pos hIB] at h
          simp at h
        rw [if_neg hIB] at h
        simp only [Prod.mk.injEq, TradeResult.executed.injEq] at h
        obtain ⟨⟨htr, hbal⟩, hpt2⟩ := h
        exact ⟨side, price, hS, hTP, hPR, hSz, hIB, htr.symm, hbal.symm,
          by rw [← hpt2, ← htr]⟩

/-- Helper: when the tracked slug is unset or unchanged, the preamble of
evaluateAndTrade only updates the tracked slug and pending snapshot. -/
theorem applyMarketChange_no_settle (pt : PaperTrader) (data : MarketData)
    (now : Nat)
    (h : pt.currentMarketSlug = none ∨ pt.currentMarketSlug = some data.marketSlug) :
    applyMarketChange pt data now =
      { pt with
        currentMarketSlug := some data.marketSlug
        pendingSettlement := some data } := by
  rcases h with h | h <;> simp [applyMarketChange, settleIfChanged, h]

/-- C1: an accepted paper-trade entry debits the balance by exactly the
trade's cost and leaves balance plus open-position cost unchanged, and a
settlement credits the balance by exactly the payouts of the OPEN
positions, so balance plus open-position cost changes by exactly the
summed payout-minus-cost differences of the settled positions. -/
theorem c1_balance_conservation :
    (∀ (pt : PaperTrader) (data : MarketData) (now : Nat) (tr : Trade) (bal : ℚ),
        pt.currentMarketSlug = none ∨ pt.currentMarketSlug = some data.marketSlug →
        (evaluateAndTrade pt data now).1 = TradeResult.executed tr bal →
        (evaluateAndTrade pt data now).2.balance = pt.balance - tr.cost ∧
        (evaluateAndTrade pt data now).2.balance +
            openCost (evaluateAndTrade pt data now).2 =
          pt.balance + openCost pt) ∧
    (∀ (pt : PaperTrader) (fd : MarketData) (now : Nat) (cp ptb : ℚ),
        fd.chainlink = some cp → fd.priceToBeat = some ptb →
        (settlePositions pt (some fd) now).balance =
          pt.balance + ((openTrades pt).map (payout (settleOutcome cp ptb))).sum ∧
        (settlePositions pt (some fd) now).balance +
            openCost (settlePositions pt (some fd) now) =
          pt.balance + openCost pt +
            (((openTrades pt).map (payout (settleOutcome cp ptb))).sum -
              ((openTrades pt).map Trade.cost).sum)) := by
  constructor
  · intro pt data now tr bal hns hfst
    have hpre := applyMarketChange_no_settle pt data now hns
    have heval : evaluateAndTrade pt data now =
        evalGates { pt with
          currentMarketSlug := some data.marketSlug
          pendingSettlement := some data } data now := by
      unfold evaluateAndTrade
      rw [hpre]
    have hpair : evalGates { pt with
        currentMarketSlug := some data.marketSlug
        pendingSettlement := some data } data now =
        (TradeResult.executed tr bal, (evaluateAndTrade pt data now).2) := by
      rw [← heval]
      exact Prod.ext hfst rfl
    obtain ⟨side, price, hS, hTP, hPR, hSz, hIB, htr, hbal, hpt2⟩ :=
      evalGates_executed hpair
    have hcost : tr.cost =
        costOf { pt with
          currentMarketSlug := some data.marketSlug
          pendingSettlement := some data } data price := by
      rw [htr]
      rfl
    have hopen : tr.status = PStatus.OPEN := by
      rw [htr]
      rfl
    constructor
    · rw [hpt2]
      simp [hcost]
    · rw [hpt2]
      simp only [openCost, openTrades, List.filter_append, List.map_append,
        List.sum_append]
      simp [hopen, ← hcost]
  · intro pt fd now cp ptb hcp hptb
    obtain ⟨hbal, hpos⟩ := settlePositions_some pt fd now cp ptb hcp hptb
    refine ⟨hbal, ?_⟩
    have h0 : openCost (settlePositions pt (some fd) now) = 0 := by
      unfold openCost openTrades
      rw [hpos, filter_open_of_not_open]
      rfl
    rw [hbal, h0]
    have hoc : openCost pt = ((openTrades pt).map Trade.cost).sum := rfl
    rw [hoc]
    ring

/-- Witness for the balance-conservation theorem: the concrete sizing
example debits exactly the trade cost, and the concrete settlement credits
exactly the payouts of the open positions. -/
theorem c1_balance_conservation_witness :
    ((evaluateAndTrade ptC3 dataC3 100).2.balance = ptC3.balance - trC3.cost) ∧
    ((settlePositions ptSettle (some fdSettle) 7).balance =
      ptSettle.balance +
        ((openTrades ptSettle).map (payout (settleOutcome 60123 60000))).sum) := by
  have hexec : (evaluateAndTrade ptC3 dataC3 100).1 = TradeResult.executed trC3 950 := by
    norm_num +decide [evaluateAndTrade, evalGates, applyMarketChange, settleIfChanged, canTrade,
      checkAutoReset, cooldownActive, edgeValueOf, kellyFractionOf, positionSizeOf,
      sharesOf, costOf, tradePrice, mkTrade, ptC3, dataC3, trC3, initialPaperTrader,
      initStats, initLifetimeStats]
  exact ⟨(c1_balance_conservation.1 ptC3 dataC3 100 trC3 950 (Or.inl rfl) hexec).1,
    (c1_balance_conservation.2 ptSettle fdSettle 7 60123 60000 rfl rfl).1⟩

/-- Helper: reset always restores the balance to the new starting
balance. -/
theorem reset_balance (pt : PaperTrader) (sb : ℚ) (rs : Bool) (now : Nat) :
    (reset pt sb rs now).balance = sb := by
  simp [reset]

/-- Helper: a recording reset of a session with at least one trade appends
exactly one session record and folds the session stats into lifetime stats
exactly once. -/
theorem reset_record_pos (pt : PaperTrader) (sb : ℚ) (now : Nat)
    (h : pt.stats.totalTrades > 0) :
    (reset pt sb true now).sessionHistory = pt.sessionHistory ++ [mkSession pt now] ∧
    (reset pt sb true now).lifetimeStats =
      addSessionToLifetime pt.lifetimeStats pt.stats (pt.balance - pt.startingBalance) := by
  constructor <;> simp [reset, h]

/-- Helper: a reset of a session with no trades records nothing. -/
theorem reset_record_zero (pt : PaperTrader) (sb : ℚ) (rs : Bool) (now : Nat)
    (h : pt.stats.totalTrades = 0) :
    (reset pt sb rs now).sessionHistory = pt.sessionHistory ∧
    (reset pt sb rs now).lifetimeStats = pt.lifetimeStats := by
  constructor <;> simp [reset, h]

/-- C4 counterexample: in a state with balance 9.50 below the auto-reset
threshold and no open positions but with paper trading disabled, canTrade
returns the disabled reason and performs no session reset, so the claim
does not hold for every such state. -/
theorem c4_disabled_counterexample :
    ptC4.balance < ptC4.autoResetThreshold ∧ ptC4.positions = [] ∧
    (canTrade ptC4 0).1 = some Reason.disabled ∧
    (canTrade ptC4 0).1 ≠ some Reason.sessionReset ∧
    (canTrade ptC4 0).2 = ptC4 := by
  refine ⟨by norm_num [ptC4, initialPaperTrader], rfl, ?_, ?_, ?_⟩
  · simp [canTrade, ptC4, initialPaperTrader]
  · simp [canTrade, ptC4, initialPaperTrader]
  · simp [canTrade, ptC4, initialPaperTrader]

/-- C4 amended: when paper trading is ENABLED and the balance is below the
auto-reset threshold with no open positions, the next canTrade call
triggers the session reset, returns the reset-pending reason, restores the
balance to the starting balance, closes the session (when it had at least
one trade) into history with the wiped flag set exactly when the ending
balance is below the threshold (true here), and adds the session's
trade/win/loss counts and won/lost totals to lifetime stats exactly
once. -/
theorem c4_auto_reset_amended (pt : PaperTrader) (now : Nat)
    (hE : pt.enabled = true) (hB : pt.balance < pt.autoResetThreshold)
    (hP : pt.positions = []) :
    (canTrade pt now).1 = some Reason.sessionReset ∧
    (canTrade pt now).2 = reset pt pt.startingBalance true now ∧
    (canTrade pt now).2.balance = pt.startingBalance ∧
    (mkSession pt now).wiped = true ∧
    (pt.stats.totalTrades > 0 →
      (canTrade pt now).2.sessionHistory = pt.sessionHistory ++ [mkSession pt now] ∧
      (canTrade pt now).2.lifetimeStats.totalSessions =
        pt.lifetimeStats.totalSessions + 1 ∧
      (canTrade pt now).2.lifetimeStats.totalTrades =
        pt.lifetimeStats.totalTrades + pt.stats.totalTrades ∧
      (canTrade pt now).2.lifetimeStats.totalWins =
        pt.lifetimeStats.totalWins + pt.stats.wins ∧
      (canTrade pt now).2.lifetimeStats.totalLosses =
        pt.lifetimeStats.totalLosses + pt.stats.losses ∧
      (canTrade pt now).2.lifetimeStats.totalWon =
        pt.lifetimeStats.totalWon + pt.stats.totalWon ∧
      (canTrade pt now).2.lifetimeStats.totalLost =
        pt.lifetimeStats.totalLost + pt.stats.totalLost) ∧
    (pt.stats.totalTrades = 0 →
      (canTrade pt now).2.sessionHistory = pt.sessionHistory ∧
      (canTrade pt now).2.lifetimeStats = pt.lifetimeStats) := by
  have hct : canTrade pt now =
      (some Reason.sessionReset, reset pt pt.startingBalance true now) := by
    unfold canTrade checkAutoReset
    simp [hE, hB, hP]
  rw [hct]
  refine ⟨rfl, rfl, reset_balance pt pt.startingBalance true now, ?_, ?_, ?_⟩
  · simp [mkSession, hB]
  · intro htr
    obtain ⟨hsh, hls⟩ := reset_record_pos pt pt.startingBalance now htr
    refine ⟨hsh, ?_, ?_, ?_, ?_, ?_, ?_⟩ <;>
      simp [hls, addSessionToLifetime]
  · intro htr0
    exact reset_record_zero pt pt.startingBalance true now htr0

/-- Witness for the amended C4 theorem: an enabled trader at balance 9.50
with three recorded trades auto-resets on canTrade, and the closed
session's counts are added to lifetime stats exactly once. -/
theorem c4_auto_reset_amended_witness :
    (canTrade { ptC4 with enabled := true } 9).1 = some Reason.sessionReset ∧
    (canTrade { ptC4 with enabled := true } 9).2.balance =
      ({ ptC4 with enabled := true } : PaperTrader).startingBalance ∧
    (canTrade { ptC4 with enabled := true } 9).2.lifetimeStats.totalTrades =
      ({ ptC4 with enabled := true } : PaperTrader).lifetimeStats.totalTrades +
        ({ ptC4 with enabled := true } : PaperTrader).stats.totalTrades := by
  have h := c4_auto_reset_amended { ptC4 with enabled := true } 9 rfl
    (by norm_num [ptC4, initialPaperTrader]) rfl
  exact ⟨h.1, h.2.2.1, (h.2.2.2.2.1 (by norm_num [ptC4, initStats])).2.2.1⟩

/-- C10: getStatus is not read-only.  When the balance is below the
auto-reset threshold and no positions are open, a status query itself
performs the session reset (closing the session into history and folding
the stats into lifetime stats when it had trades, and restoring the
balance to the starting balance) and reports the post-reset state; in
every other state it leaves the engine state unchanged. -/
theorem c10_getStatus_effect (pt : PaperTrader) (now : Nat) :
    ((pt.balance < pt.autoResetThreshold ∧ pt.positions = []) →
      (getStatus pt now).2 = reset pt pt.startingBalance true now ∧
      (getStatus pt now).1 = mkStatus (reset pt pt.startingBalance true now) ∧
      (getStatus pt now).2.balance = pt.startingBalance ∧
      (pt.stats.totalTrades > 0 →
        (getStatus pt now).2.sessionHistory = pt.sessionHistory ++ [mkSession pt now] ∧
        (getStatus pt now).2.lifetimeStats =
          addSessionToLifetime pt.lifetimeStats pt.stats
            (pt.balance - pt.startingBalance))) ∧
    (¬(pt.balance < pt.autoResetThreshold ∧ pt.positions = []) →
      getStatus pt now = (mkStatus pt, pt)) := by
  constructor
  · intro h
    have hc : checkAutoReset pt now = (true, reset pt pt.startingBalance true now) := by
      unfold checkAutoReset
      rw [if_pos h]
    have hg : getStatus pt now =
        (mkStatus (reset pt pt.startingBalance true now),
          reset pt pt.startingBalance true now) := by
      unfold getStatus
      rw [hc]
    rw [hg]
    refine ⟨rfl, rfl, reset_balance pt pt.startingBalance true now, ?_⟩
    intro htr
    exact reset_record_pos pt pt.startingBalance now htr
  · intro h
    have hc : checkAutoReset pt now = (false, pt) := by
      unfold checkAutoReset
      rw [if_neg h]
    unfold getStatus
    rw [hc]

/-- Witness for the getStatus frame-effect theorem: a low-balance state is
reset by a status query, and a healthy state is left unchanged. -/
theorem c10_getStatus_effect_witness :
    (getStatus ptC4 11).2 = reset ptC4 ptC4.startingBalance true 11 ∧
    (getStatus ptC4 11).2.balance = ptC4.startingBalance ∧
    getStatus (initialPaperTrader 1000 0) 11 =
      (mkStatus (initialPaperTrader 1000 0), initialPaperTrader 1000 0) := by
  have h1 := (c10_getStatus_effect ptC4 11).1
    ⟨by norm_num [ptC4, initialPaperTrader], rfl⟩
  have h2 := (c10_getStatus_effect (initialPaperTrader 1000 0) 11).2
    (by norm_num [initialPaperTrader])
  exact ⟨h1.1, h1.2.2.1, h2⟩

/-- Helper: the folded server loop yields the most recent successful cycle
result, or the initial snapshot when no cycle succeeded. -/
theorem runCycles_eq_lastSuccess {α : Type} (init : Option α)
    (results : List (Option α)) :
    runCycles init results =
      match lastSuccess results with
      | some d => some d
      | none => init := by
  induction results generalizing init with
  | nil => rfl
  | cons r rest ih =>
    rw [show runCycles init (r :: rest) = runCycles (updateCycle init r) rest from rfl,
      ih]
    rcases hls : lastSuccess rest with _ | d
    · simp only [lastSuccess, hls]
      cases r <;> rfl
    · simp only [lastSuccess, hls]

/-- Helper: if every cycle failed, there is no successful result. -/
theorem lastSuccess_none {α : Type} (results : List (Option α))
    (h : ∀ r ∈ results, r = none) : lastSuccess results = none := by
  induction results with
  | nil => rfl
  | cons r rest ih =>
    have hr : r = none := h r (List.mem_cons_self r rest)
    have hrest := ih fun x hx => h x (List.mem_cons_of_mem r hx)
    simp [lastSuccess, hrest, hr]

/-- C9: the data endpoint serves not-ready while every cycle so far has
failed, and after any success it serves the most recent successful
snapshot; a failed cycle never blanks or replaces the published snapshot
and a successful cycle replaces it atomically. -/
theorem c9_snapshot_serving {α : Type} (results : List (Option α)) :
    ((∀ r ∈ results, r = none) →
      getDataEndpoint (runCycles (none : Option α) results) = ApiResponse.notReady) ∧
    (∀ d : α, lastSuccess results = some d →
      getDataEndpoint (runCycles (none : Option α) results) = ApiResponse.ok d) ∧
    (∀ latest : Option α, updateCycle latest none = latest) ∧
    (∀ (latest : Option α) (d : α), updateCycle latest (some d) = some d) := by
  refine ⟨?_, ?_, fun latest => rfl, fun latest d => rfl⟩
  · intro h
    rw [runCycles_eq_lastSuccess, lastSuccess_none results h]
    rfl
  · intro d hd
    rw [runCycles_eq_lastSuccess, hd]
    rfl

/-- Witness for the snapshot-serving theorem: after a success followed by
a failure, the endpoint still serves the earlier snapshot; before any
success it serves not-ready. -/
theorem c9_snapshot_serving_witness :
    getDataEndpoint (runCycles (none : Option Nat) [some 1, none]) =
      ApiResponse.ok 1 ∧
    getDataEndpoint (runCycles (none : Option Nat) [none, none]) =
      ApiResponse.notReady ∧
    updateCycle (some 1) (none : Option Nat) = some 1 := by
  refine ⟨(c9_snapshot_serving [some 1, none]).2.1 1 rfl,
    (c9_snapshot_serving [none, none]).1 (by decide),
    (c9_snapshot_serving ([] : List (Option Nat))).2.2.1 (some 1)⟩

/-- Helper: a list with no duplicates containing exactly one element
satisfying a predicate filters to a single element. -/
theorem filter_length_one {p : Nat → Bool} : ∀ (l : List Nat), l.Nodup →
    ∀ i0 ∈ l, p i0 = true → (∀ i ∈ l, i ≠ i0 → p i = false) →
    (l.filter p).length = 1 := by
  intro l
  induction l with
  | nil => intro _ i0 h; cases h
  | cons a rest ih =>
    intro hnd i0 hi0 hp hq
    rcases List.mem_cons.mp hi0 with rfl | hmem
    · have hrest : rest.filter p = [] := by
        refine List.filter_eq_nil_iff.mpr fun b hb => ?_
        have hba : b ≠ i0 := fun h => (List.nodup_cons.mp hnd).1 (h ▸ hb)
        simp [hq b (List.mem_cons_of_mem _ hb) hba]
      simp [List.filter_cons, hp, hrest]
    · have hai0 : a ≠ i0 := fun h => (List.nodup_cons.mp hnd).1 (h ▸ hmem)
      have hpa : p a = false := hq a (List.mem_cons_self _ _) hai0
      rw [List.filter_cons_of_neg (by simp [hpa])]
      exact ih (List.nodup_cons.mp hnd).2 i0 hmem hp
        fun i hi hne => hq i (List.mem_cons_of_mem _ hi) hne

/-- C7 amended: the crossing counter returns null when either series is
shorter than the lookback; a zero difference on either side of an adjacent
pair never counts as a cross (the code carries no previous-sign reference,
so positive, zero, negative counts zero crosses); a difference series that
never changes sign yields zero crosses; and a window with exactly one
adjacent strict sign flip yields exactly one cross. -/
theorem c7_cross_count_amended :
    (∀ (closes vwap : List ℚ) (n : Nat),
        closes.length < n ∨ vwap.length < n →
        countVwapCrosses closes vwap n = none) ∧
    (∀ (closes vwap : List ℚ) (i : Nat),
        closes.getD (i - 1) 0 - vwap.getD (i - 1) 0 = 0 →
        crossAt closes vwap i = false) ∧
    (∀ (closes vwap : List ℚ) (i : Nat),
        closes.getD i 0 - vwap.getD i 0 = 0 →
        crossAt closes vwap i = false) ∧
    (∀ (closes vwap : List ℚ) (n : Nat),
        n ≤ closes.length → n ≤ vwap.length →
        ((∀ i, i < closes.length → 0 ≤ closes.getD i 0 - vwap.getD i 0) ∨
          (∀ i, i < closes.length → closes.getD i 0 - vwap.getD i 0 ≤ 0)) →
        countVwapCrosses closes vwap n = some 0) ∧
    (∀ (closes vwap : List ℚ) (n i0 : Nat),
        n ≤ closes.length → n ≤ vwap.length →
        i0 ∈ List.range' (closes.length - n + 1) (n - 1) →
        crossAt closes vwap i0 = true →
        (∀ i ∈ List.range' (closes.length - n + 1) (n - 1), i ≠ i0 →
          crossAt closes vwap i = false) →
        countVwapCrosses closes vwap n = some 1) := by
  refine ⟨?_, ?_, ?_, ?_, ?_⟩
  · intro closes vwap n h
    unfold countVwapCrosses
    rw [if_pos h]
  · intro closes vwap i h
    simp only [crossAt]
    rw [h]
    simp
  · intro closes vwap i h
    simp only [crossAt]
    rw [h]
    simp
  · intro closes vwap n hcl hvl hsigns
    unfold countVwapCrosses
    rw [if_neg (by omega)]
    have hnil : (List.range' (closes.length - n + 1) (n - 1)).filter
        (crossAt closes vwap) = [] := by
      refine List.filter_eq_nil_iff.mpr fun i hi => ?_
      have hmem := List.mem_range'_1.mp hi
      have hiL : i < closes.length := by omega
      have hi1L : i - 1 < closes.length := by omega
      simp only [crossAt, Bool.not_eq_true, decide_eq_false_iff_not]
      rintro ⟨hne, hcase | hcase⟩
      · rcases hsigns with hs | hs
        · exact absurd hcase.2 (not_lt.mpr (hs i hiL))
        · exact absurd hcase.1 (not_lt.mpr (hs (i - 1) hi1L))
      · rcases hsigns with hs | hs
        · exact absurd hcase.1 (not_lt.mpr (hs (i - 1) hi1L))
        · exact absurd hcase.2 (not_lt.mpr (hs i hiL))
    rw [hnil]
    rfl
  · intro closes vwap n i0 hcl hvl hi0 hcross huniq
    unfold countVwapCrosses
    rw [if_neg (by omega)]
    rw [filter_length_one _ (List.nodup_range' _ _) i0 hi0 hcross huniq]

/-- Witness for the amended crossing-counter theorem: a short series gives
null, an all-positive difference series gives zero crosses, and a series
with exactly one adjacent sign flip gives one cross. -/
theorem c7_cross_count_amended_witness :
    countVwapCrosses [1] [1] 3 = none ∧
    countVwapCrosses [2, 3, 4] [1, 1, 1] 3 = some 0 ∧
    countVwapCrosses [1, -1, -1] [0, 0, 0] 3 = some 1 := by
  refine ⟨c7_cross_count_amended.1 [1] [1] 3 (by norm_num),
    c7_cross_count_amended.2.2.2.1 [2, 3, 4] [1, 1, 1] 3 (by norm_num) (by norm_num)
      (Or.inl ?_),
    c7_cross_count_amended.2.2.2.2 [1, -1, -1] [0, 0, 0] 3 1 (by norm_num)
      (by norm_num) (by decide) ?_ ?_⟩
  · intro i hi
    simp only [List.length_cons, List.length_nil] at hi
    interval_cases i <;> norm_num [List.getD]
  · norm_num [crossAt, List.getD]
  · intro i hi hne
    simp only [List.length_cons, List.length_nil] at hi
    have h2 := List.mem_range'_1.mp hi
    have : i = 2 := by omega
    subst this
    norm_num [crossAt, List.getD]

/-- Helper: payouts of positions with nonnegative shares are
nonnegative. -/
theorem payout_nonneg (outcome : Side) (t : Trade) (h : 0 ≤ t.shares) :
    0 ≤ payout outcome t := by
  unfold payout
  split_ifs
  · simpa using (by exact_mod_cast h : (0 : ℚ) ≤ (t.shares : ℚ))
  · exact le_refl 0

/-- Helper: settlement changes neither the configured parameters nor the
starting balance. -/
theorem settlePositions_frame (pt : PaperTrader) (fd : Option MarketData)
    (now : Nat) :
    (settlePositions pt fd now).startingBalance = pt.startingBalance ∧
    (settlePositions pt fd now).maxPositionPct = pt.maxPositionPct := by
  rcases fd with _ | fd
  · exact ⟨rfl, rfl⟩
  · by_cases hp : pt.positions = []
    · simp [settlePositions, hp]
    · rcases hc : fd.chainlink with _ | cp <;>
        rcases hb : fd.priceToBeat with _ | ptb <;>
        simp [settlePositions, hp, hc, hb]

/-- Helper: settlement preserves the engine invariant. -/
theorem settlePositions_inv (pt : PaperTrader) (fd : Option MarketData)
    (now : Nat) (h : PtInv pt) : PtInv (settlePositions pt fd now) := by
  rcases fd with _ | fd
  · exact h
  · by_cases hp : pt.positions = []
    · simpa [settlePositions, hp] using h
    · rcases hc : fd.chainlink with _ | cp
      · simpa [settlePositions, hp, hc] using h
      rcases hb : fd.priceToBeat with _ | ptb
      · simpa [settlePositions, hp, hc, hb] using h
      obtain ⟨hbal, hsb, hsh⟩ := h
      obtain ⟨hcb, hcp2⟩ := settlePositions_some pt fd now cp ptb hc hb
      refine ⟨?_, ?_, ?_⟩
      · rw [hcb]
        have hsum : 0 ≤ ((openTrades pt).map (payout (settleOutcome cp ptb))).sum := by
          apply List.sum_nonneg
          intro x hx
          obtain ⟨t, ht, rfl⟩ := List.mem_map.mp hx
          exact payout_nonneg _ _ (hsh t (List.mem_filter.mp ht).1)
        linarith
      · rw [(settlePositions_frame pt (some fd) now).1]
        exact hsb
      · intro t ht
        rw [hcp2] at ht
        exact hsh t (List.mem_filter.mp ht).1

/-- Helper: reset keeps the configured parameters and starting-balance
argument. -/
theorem reset_frame (pt : PaperTrader) (sb : ℚ) (rs : Bool) (now : Nat) :
    (reset pt sb rs now).startingBalance = sb ∧
    (reset pt sb rs now).positions = [] ∧
    (reset pt sb rs now).maxPositionPct = pt.maxPositionPct := by
  refine ⟨?_, ?_, ?_⟩ <;> simp [reset]
  split_ifs <;> rfl

/-- Helper: the auto-reset invoked from canTrade preserves the engine
invariant. -/
theorem reset_inv (pt : PaperTrader) (now : Nat) (h : PtInv pt) :
    PtInv (reset pt pt.startingBalance true now) := by
  obtain ⟨hf1, hf2, hf3⟩ := reset_frame pt pt.startingBalance true now
  refine ⟨?_, ?_, ?_⟩
  · rw [reset_balance]
    exact h.2.1
  · rw [hf1]
    exact h.2.1
  · intro t ht
    rw [hf2] at ht
    cases ht

/-- Helper: canTrade preserves the engine invariant and the position
limit. -/
theorem canTrade_inv (pt : PaperTrader) (now : Nat) (h : PtInv pt) :
    PtInv (canTrade pt now).2 := by
  rcases canTrade_snd pt now with h1 | ⟨_, h2⟩
  · rw [h1]
    exact h
  · rw [h2]
    exact reset_inv pt now h

/-- Helper: canTrade does not change the maximum position fraction. -/
theorem canTrade_mpp (pt : PaperTrader) (now : Nat) :
    (canTrade pt now).2.maxPositionPct = pt.maxPositionPct := by
  rcases canTrade_snd pt now with h1 | ⟨_, h2⟩
  · rw [h1]
  · rw [h2]
    exact (reset_frame pt pt.startingBalance true now).2.2

/-- Helper: the cost of an accepted position never exceeds the balance
when the balance is nonnegative and the position fraction is at most
one. -/
theorem costOf_le_balance (pt : PaperTrader) (data : MarketData) (price : ℚ)
    (hb : 0 ≤ pt.balance) (hm : pt.maxPositionPct ≤ 1) (hp : 0 < price) :
    costOf pt data price ≤ pt.balance := by
  have h1 : (⌊positionSizeOf pt data / price⌋ : ℚ) ≤ positionSizeOf pt data / price :=
    Int.floor_le _
  have h2 : costOf pt data price ≤ positionSizeOf pt data := by
    calc (sharesOf pt data price : ℚ) * price
        ≤ positionSizeOf pt data / price * price :=
          mul_le_mul_of_nonneg_right h1 hp.le
      _ = positionSizeOf pt data := div_mul_cancel₀ _ hp.ne'
  have h3 : positionSizeOf pt data ≤ pt.balance * pt.maxPositionPct :=
    min_le_right _ _
  have h4 : pt.balance * pt.maxPositionPct ≤ pt.balance := by
    calc pt.balance * pt.maxPositionPct ≤ pt.balance * 1 :=
          mul_le_mul_of_nonneg_left hm hb
      _ = pt.balance := mul_one _
  linarith

/-- Helper: the state after the gate part is either the canTrade state (on
rejection) or the entry-updated state (on execution), with the price and
size gate facts available in the execution case. -/
theorem evalGates_snd_cases (pt : PaperTrader) (data : MarketData) (now : Nat) :
    (evalGates pt data now).2 = (canTrade pt now).2 ∨
    ∃ side price, tradePrice data = some price ∧
      ¬(price ≤ 0 ∨ 1 ≤ price) ∧
      ¬(sharesOf pt data price < 1 ∨ positionSizeOf pt data < 1) ∧
      (evalGates pt data now).2 =
        { pt with
          balance := pt.balance - costOf pt data price
          lastTradeTime := some now
          trades := pt.trades ++ [mkTrade pt data side price now]
          positions := pt.positions ++ [mkTrade pt data side price now] } := by
  unfold evalGates
  split
  next r pt1 heq =>
    exact Or.inl (congrArg Prod.snd heq).symm
  next pt1 heq =>
    have hsnd : (canTrade pt now).2 = pt1 := congrArg Prod.snd heq
    have hpt1 : pt1 = pt := by
      rw [← hsnd]
      exact canTrade_none_snd pt now (by rw [heq])
    subst hpt1
    by_cases hH : data.signalAction = "HOLD"
    · rw [if_pos hH]
      exact Or.inl hsnd.symm
    rw [if_neg hH]
    split
    next hS => exact Or.inl hsnd.symm
    next side hS =>
      by_cases hEdge : edgeValueOf data < pt1.minEdge
      · rw [if_pos hEdge]
        exact Or.inl hsnd.symm
      rw [if_neg hEdge]
      by_cases hStr : data.signalStrength ≠ "STRONG" ∧ data.signalStrength ≠ "GOOD"
      · rw [if_pos hStr]
        exact Or.inl hsnd.symm
      rw [if_neg hStr]
      by_cases hLate : data.phase = "LATE"
      · rw [if_pos hLate]
        exact Or.inl hsnd.symm
      rw [if_neg hLate]
      split
      next hTP => exact Or.inl hsnd.symm
      next price hTP =>
        by_cases hPR : price ≤ 0 ∨ 1 ≤ price
        · rw [if_pos hPR]
          exact Or.inl hsnd.symm
        rw [if_neg hPR]
        by_cases hSz : sharesOf pt1 data price < 1 ∨ positionSizeOf pt1 data < 1
        · rw [if_pos hSz]
          exact Or.inl hsnd.symm
        rw [if_neg hSz]
        by_cases hIB : pt1.balance < costOf pt1 data price
        · rw [if_pos hIB]
          exact Or.inl hsnd.symm
        rw [if_neg hIB]
        exact Or.inr ⟨side, price, hTP, hPR, hSz, rfl⟩

/-- Helper: the gate part does not change the maximum position
fraction. -/
theorem evalGates_mpp (pt : PaperTrader) (data : MarketData) (now : Nat) :
    (evalGates pt data now).2.maxPositionPct = pt.maxPositionPct := by
  rcases evalGates_snd_cases pt data now with h | ⟨side, price, _, _, _, h⟩
  · rw [h]
    exact canTrade_mpp pt now
  · rw [h]

/-- Helper: the gate part preserves the engine invariant. -/
theorem evalGates_inv (pt : PaperTrader) (data : MarketData) (now : Nat)
    (hm : pt.maxPositionPct ≤ 1) (h : PtInv pt) :
    PtInv (evalGates pt data now).2 := by
  rcases evalGates_snd_cases pt data now with heq | ⟨side, price, hTP, hPR, hSz, heq⟩
  · rw [heq]
    exact canTrade_inv pt now h
  · push_neg at hPR hSz
    have hple : costOf pt data price ≤ pt.balance :=
      costOf_le_balance pt data price h.1 hm hPR.1
    rw [heq]
    refine ⟨by simpa using hple, h.2.1, ?_⟩
    intro t ht
    simp only [List.mem_append, List.mem_singleton] at ht
    rcases ht with ht | rfl
    · exact h.2.2 t ht
    · have : (1 : Int) ≤ sharesOf pt data price := hSz.1
      simp only [mkTrade]
      omega

/-- Helper: the market-change check either keeps the state or settles the
pending snapshot. -/
theorem settleIfChanged_cases (pt : PaperTrader) (data : MarketData)
    (now : Nat) :
    settleIfChanged pt data now = pt ∨
    settleIfChanged pt data now = settlePositions pt pt.pendingSettlement now := by
  unfold settleIfChanged
  split
  · split_ifs
    · right
      rfl
    · left
      rfl
  · left
    rfl

/-- Helper: the preamble of evaluateAndTrade preserves the invariant and
the position limit. -/
theorem applyMarketChange_inv (pt : PaperTrader) (data : MarketData)
    (now : Nat) (h : PtInv pt) :
    PtInv (applyMarketChange pt data now) ∧
    (applyMarketChange pt data now).maxPositionPct = pt.maxPositionPct := by
  unfold applyMarketChange
  rcases settleIfChanged_cases pt data now with he | he <;> rw [he]
  · exact ⟨⟨h.1, h.2.1, h.2.2⟩, rfl⟩
  · have h1 := settlePositions_inv pt pt.pendingSettlement now h
    have h2 := settlePositions_frame pt pt.pendingSettlement now
    exact ⟨⟨h1.1, h1.2.1, h1.2.2⟩, h2.2⟩

/-- Helper: one evaluateAndTrade call preserves the engine invariant. -/
theorem evaluateAndTrade_inv (pt : PaperTrader) (data : MarketData)
    (now : Nat) (hm : pt.maxPositionPct ≤ 1) (h : PtInv pt) :
    PtInv (evaluateAndTrade pt data now).2 := by
  obtain ⟨h1, h2⟩ := applyMarketChange_inv pt data now h
  exact evalGates_inv (applyMarketChange pt data now) data now (h2 ▸ hm) h1

/-- Helper: one paper-engine step preserves the invariant. -/
theorem ptStep_inv (pt : PaperTrader) (ev : PtEvent)
    (hm : pt.maxPositionPct ≤ 1) (h : PtInv pt) : PtInv (ptStep pt ev) := by
  cases ev with
  | eval data now => exact evaluateAndTrade_inv pt data now hm h
  | settle fd now => exact settlePositions_inv pt fd now h

/-- Helper: one paper-engine step does not change the maximum position
fraction. -/
theorem ptStep_mpp (pt : PaperTrader) (ev : PtEvent) :
    (ptStep pt ev).maxPositionPct = pt.maxPositionPct := by
  cases ev with
  | eval data now =>
    show (evalGates (applyMarketChange pt data now) data now).2.maxPositionPct = _
    rw [evalGates_mpp]
    unfold applyMarketChange
    rcases settleIfChanged_cases pt data now with he | he <;> rw [he]
    exact (settlePositions_frame pt pt.pendingSettlement now).2
  | settle fd now => exact (settlePositions_frame pt fd now).2

/-- Helper: a whole run of entries and settlements preserves the
invariant. -/
theorem ptRun_inv : ∀ (evs : List PtEvent) (pt : PaperTrader),
    PtInv pt → pt.maxPositionPct ≤ 1 → PtInv (ptRun pt evs) := by
  intro evs
  induction evs with
  | nil => intro pt h _; exact h
  | cons ev rest ih =>
    intro pt h hm
    have h1 := ptStep_inv pt ev hm h
    have hm1 : (ptStep pt ev).maxPositionPct ≤ 1 := by
      rw [ptStep_mpp]
      exact hm
    exact ih (ptStep pt ev) h1 hm1

/-- Helper: canTrade never reports the insufficient-balance reason. -/
theorem canTrade_not_insufficient (pt : PaperTrader) (now : Nat) :
    (canTrade pt now).1 ≠ some Reason.insufficientBalance := by
  unfold canTrade checkAutoReset
  split_ifs <;> simp
  split_ifs <;> simp

/-- Helper: an insufficient-balance rejection can only arise with a valid
price, an accepted size and a cost exceeding the balance. -/
theorem evalGates_insufficient {pt : PaperTrader} {data : MarketData} {now : Nat}
    (h : (evalGates pt data now).1 = TradeResult.rejected Reason.insufficientBalance) :
    ∃ price, tradePrice data = some price ∧
      ¬(price ≤ 0 ∨ 1 ≤ price) ∧
      ¬(sharesOf pt data price < 1 ∨ positionSizeOf pt data < 1) ∧
      pt.balance < costOf pt data price := by
  unfold evalGates at h
  split at h
  next r pt1 heq =>
    simp only [TradeResult.rejected.injEq] at h
    exact absurd (by rw [heq, h] : (canTrade pt now).1 = some Reason.insufficientBalance)
      (canTrade_not_insufficient pt now)
  next pt1 heq =>
    have hpt1 : pt1 = pt := by
      have h2 := canTrade_none_snd pt now (by rw [heq])
      rw [heq] at h2
      exact h2
    rw [hpt1] at h
    by_cases hH : data.signalAction = "HOLD"
    · rw [if_pos hH] at h
      simp at h
    rw [if_neg hH] at h
    split at h
    next hS => simp at h
    next side hS =>
      by_cases hEdge : edgeValueOf data < pt.minEdge
      · rw [if_pos hEdge] at h
        simp at h
      rw [if_neg hEdge] at h
      by_cases hStr : data.signalStrength ≠ "STRONG" ∧ data.signalStrength ≠ "GOOD"
      · rw [if_pos hStr] at h
        simp at h
      rw [if_neg hStr] at h
      by_cases hLate : data.phase = "LATE"
      · rw [if_pos hLate] at h
        simp at h
      rw [if_neg hLate] at h
      split at h
      next hTP => simp at h
      next price hTP =>
        by_cases hPR : price ≤ 0 ∨ 1 ≤ price
        · rw [if_pos hPR] at h
          simp at h
        rw [if_neg hPR] at h
        by_cases hSz : sharesOf pt data price < 1 ∨ positionSizeOf pt data < 1
        · rw [if_pos hSz] at h
          simp at h
        rw [if_neg hSz] at h
        by_cases hIB : pt.balance < costOf pt data price
        · exact ⟨price, hTP, hPR, hSz, hIB⟩
        · rw [if_neg hIB] at h
          simp at h

/-- C8: under the paper-engine gating (position fraction at most one and
the nonnegativity invariant), every accepted trade has at least one share
(the computed share count is never negative), the balance never becomes
negative across any sequence of entries and settlements, and the
insufficient-balance rejection is unreachable. -/
theorem c8_no_negative_balance :
    (∀ (pt : PaperTrader) (evs : List PtEvent),
        PtInv pt → pt.maxPositionPct ≤ 1 →
        PtInv (ptRun pt evs) ∧ 0 ≤ (ptRun pt evs).balance) ∧
    (∀ (pt : PaperTrader) (data : MarketData) (now : Nat) (tr : Trade) (bal : ℚ),
        (evaluateAndTrade pt data now).1 = TradeResult.executed tr bal →
        1 ≤ tr.shares) ∧
    (∀ (pt : PaperTrader) (data : MarketData) (now : Nat),
        PtInv pt → pt.maxPositionPct ≤ 1 →
        (evaluateAndTrade pt data now).1 ≠
          TradeResult.rejected Reason.insufficientBalance) := by
  refine ⟨?_, ?_, ?_⟩
  · intro pt evs h hm
    have hi := ptRun_inv evs pt h hm
    exact ⟨hi, hi.1⟩
  · intro pt data now tr bal hfst
    have hpair : evalGates (applyMarketChange pt data now) data now =
        (TradeResult.executed tr bal, (evaluateAndTrade pt data now).2) :=
      Prod.ext hfst rfl
    obtain ⟨side, price, hS, hTP, hPR, hSz, hIB, htr, hbal, hpt2⟩ :=
      evalGates_executed hpair
    push_neg at hSz
    have : tr.shares = sharesOf (applyMarketChange pt data now) data price := by
      rw [htr]
      rfl
    rw [this]
    exact hSz.1
  · intro pt data now h hm hfst
    obtain ⟨hinv1, hmpp1⟩ := applyMarketChange_inv pt data now h
    obtain ⟨price, hTP, hPR, hSz, hIB⟩ :=
      @evalGates_insufficient (applyMarketChange pt data now) data now hfst
    push_neg at hPR
    have := costOf_le_balance (applyMarketChange pt data now) data price
      hinv1.1 (hmpp1 ▸ hm) hPR.1
    linarith

/-- Witness for the safety theorem: from a fresh enabled trader, a run
with one entry and one settlement keeps the invariant, the concrete
accepted trade has 125 shares, and the concrete evaluation is not an
insufficient-balance rejection. -/
theorem c8_no_negative_balance_witness :
    (PtInv (ptRun { initialPaperTrader 1000 0 with enabled := true }
        [PtEvent.eval dataC3 100, PtEvent.settle (some fdSettle) 200]) ∧
      0 ≤ (ptRun { initialPaperTrader 1000 0 with enabled := true }
        [PtEvent.eval dataC3 100, PtEvent.settle (some fdSettle) 200]).balance) ∧
    1 ≤ trC3.shares ∧
    (evaluateAndTrade ptC3 dataC3 100).1 ≠
      TradeResult.rejected Reason.insufficientBalance := by
  have hinv : PtInv ({ initialPaperTrader 1000 0 with enabled := true } : PaperTrader) := by
    refine ⟨by norm_num [initialPaperTrader], by norm_num [initialPaperTrader], ?_⟩
    intro t ht
    simp [initialPaperTrader] at ht
  have hexec : (evaluateAndTrade ptC3 dataC3 100).1 = TradeResult.executed trC3 950 := by
    norm_num +decide [evaluateAndTrade, evalGates, applyMarketChange, settleIfChanged,
      canTrade, checkAutoReset, cooldownActive, edgeValueOf, kellyFractionOf,
      positionSizeOf, sharesOf, costOf, tradePrice, mkTrade, ptC3, dataC3, trC3,
      initialPaperTrader, initStats, initLifetimeStats]
  refine ⟨c8_no_negative_balance.1 { initialPaperTrader 1000 0 with enabled := true }
      [PtEvent.eval dataC3 100, PtEvent.settle (some fdSettle) 200] hinv
      (by norm_num [initialPaperTrader]),
    c8_no_negative_balance.2.1 ptC3 dataC3 100 trC3 950 hexec,
    c8_no_negative_balance.2.2 ptC3 dataC3 100 ?_ (by norm_num [ptC3, initialPaperTrader])⟩
  refine ⟨by norm_num [ptC3, initialPaperTrader], by norm_num [ptC3, initialPaperTrader], ?_⟩
  intro t ht
  simp [ptC3, initialPaperTrader] at ht

end PolymarketBTC15m
